import Mathlib

/-!
Verification development for the avro-sqlite package: a shallow embedding of
the schema translation pipeline (SQLite table metadata to Avro record schema),
the default-value resolution rules, and the pure control flow of the Avro
row decode / load routines, together with theorems settling the stated
properties of those functions.

Conventions of the embedding:
* Go dynamic values (`any` / `interface{}`) are modelled by the inductive
  `GoValue`, with one constructor per dynamic type the package manipulates;
  float64 values are modelled as rationals (no floating-point rounding is
  exercised by any property below), and byte slices by their underlying
  string content (no byte-level arithmetic occurs in the package).
* Functions from the hamba/avro v1.8.0 dependency that the package calls
  (`NewUnionSchema`, `NewRecordSchema`, `NewField`, name validation) are
  modelled at their documented interface, including the union-member
  uniqueness check mandated by the Avro specification.
* Database I/O (query, scan, exec, prepare) is external: the pure row
  processing is modelled over the list of already-fetched catalog rows, and
  the SQLite store written by `LoadAvro` is modelled as an optional list of
  inserted records (`none` = table absent).
-/

namespace AvroSqlite

/-- A Go dynamic value (`any`), one constructor per dynamic type that flows
through the package: `vInt` is a Go `int`, `vInt64` a Go `int64` (the two are
distinct dynamic types, which matters for type assertions), `vFloat64` a
`float64` modelled as a rational, `vString` a `string`, `vBytes` a `[]byte`
modelled by its content string, `vBool` a `bool`, `vNil` the untyped `nil`,
`noDefault` the `avro.NoDefault` sentinel, and `vOther` any other dynamic
type (carrying a tag naming it). -/
inductive GoValue where
  | vNil : GoValue
  | noDefault : GoValue
  | vInt (n : Int) : GoValue
  | vInt64 (n : Int) : GoValue
  | vFloat64 (q : Rat) : GoValue
  | vString (s : String) : GoValue
  | vBytes (s : String) : GoValue
  | vBool (b : Bool) : GoValue
  | vOther (tag : String) : GoValue
deriving DecidableEq, Repr

/-- `SqliteType` is a string in the source (`type SqliteType string`). -/
abbrev SqliteType := String

/-- The sqlite storage class constant `SqliteNull`. -/
def SqliteNull : SqliteType := "null"

/-- The sqlite storage class constant `SqliteInteger`. -/
def SqliteInteger : SqliteType := "integer"

/-- The sqlite storage class constant `SqliteReal`. -/
def SqliteReal : SqliteType := "real"

/-- The sqlite storage class constant `SqliteText`. -/
def SqliteText : SqliteType := "text"

/-- The sqlite storage class constant `SqliteBlob`. -/
def SqliteBlob : SqliteType := "blob"

/-- The sqlite storage class constant `SqliteBoolean`. -/
def SqliteBoolean : SqliteType := "boolean"

/-- `SqliteIntegerDefault = 0`: an untyped Go constant, materialized as a Go
`int` (not `int64`) when returned through an `interface{}` result. -/
def SqliteIntegerDefault : GoValue := .vInt 0

/-- `SqliteRealDefault = 0.0`, materialized as a `float64`. -/
def SqliteRealDefault : GoValue := .vFloat64 0

/-- `SqliteTextDefault = ""`, materialized as a `string`. -/
def SqliteTextDefault : GoValue := .vString ""

/-- `SqliteBlobDefault = []byte{}`. -/
def SqliteBlobDefault : GoValue := .vBytes ""

/-- One field of a SQLite table schema. The Go struct field `Type` is named
`Typ` here because `Type` is a Lean keyword; all other names match the
source. `Default` holds a Go dynamic value (possibly the `avro.NoDefault`
sentinel). -/
structure SchemaField where
  Name : String
  Typ : SqliteType
  Nullable : Bool
  Default : GoValue
deriving DecidableEq, Repr

/-- The schema of a SQLite table: name, ordered fields, creation SQL. -/
structure SqliteSchema where
  Table : String
  Fields : List SchemaField
  Sql : String
deriving DecidableEq, Repr

/-- An Avro schema as the package builds them: the six primitives produced by
the type mapper, unions, and named records whose fields carry a name, a type
and a resolved default (a Go dynamic value, possibly `noDefault`). -/
inductive AvroSchema where
  | anull : AvroSchema
  | along : AvroSchema
  | adouble : AvroSchema
  | astring : AvroSchema
  | abytes : AvroSchema
  | aboolean : AvroSchema
  | union (types : List AvroSchema) : AvroSchema
  | record (name : String) (ns : String)
      (fields : List (String × AvroSchema × GoValue)) : AvroSchema

/-- The type name of a schema as used by the union uniqueness check of
hamba/avro (`schemaTypeName`): the full name for named schemas, the
primitive/union type name otherwise. -/
def schemaTypeName : AvroSchema → String
  | .anull => "null"
  | .along => "long"
  | .adouble => "double"
  | .astring => "string"
  | .abytes => "bytes"
  | .aboolean => "boolean"
  | .union _ => "union"
  | .record n ns _ => if ns = "" then n else ns ++ "." ++ n

/-- Validity of the first character of an Avro name: ASCII letter or `_`. -/
def isValidNameFirstChar (c : Char) : Bool :=
  (('A' ≤ c && c ≤ 'Z') || ('a' ≤ c && c ≤ 'z') || c == '_')

/-- Validity of a later character of an Avro name: letter, digit or `_`. -/
def isValidNameOtherChar (c : Char) : Bool :=
  isValidNameFirstChar c || ('0' ≤ c && c ≤ '9')

/-- Model of hamba/avro name-part validation (`validateName`): non-empty,
first character a letter or `_`, the rest letters, digits or `_`. The exact
error message text is abstracted to a single string, as nothing in the
package inspects it. -/
def validateName (s : String) : Bool :=
  match s.data with
  | [] => false
  | c :: rest => isValidNameFirstChar c && rest.all isValidNameOtherChar

/-- Splitting a character list at every occurrence of a separator, with the
semantics of Go `strings.Split` for a one-character separator (the empty
input gives one empty part; a separator at either end gives an empty part
there). Defined by structural recursion so that it evaluates under
definitional reduction. -/
def splitOnChar (sep : Char) : List Char → List (List Char)
  | [] => [[]]
  | c :: rest =>
    match splitOnChar sep rest with
    | [] => if c = sep then [[], []] else [[c]]
    | h :: t => if c = sep then [] :: h :: t else (c :: h) :: t

/-- The dot-separated parts of a string, as strings. -/
def dotParts (s : String) : List String :=
  (splitOnChar '.' s.data).map String.mk

/-- Model of hamba/avro `newName`: a dotted name overrides the namespace with
everything before the last dot; every dot-separated part of the resulting
full name must validate. Returns the short name and effective namespace. -/
def newName (n : String) (space : String) : Except String (String × String) :=
  let parts := dotParts n
  let short := parts.getLast!
  let space := if parts.length > 1 then
      String.intercalate "." (parts.dropLast)
    else space
  let full := if space = "" then short else space ++ "." ++ short
  if (dotParts full).all validateName then .ok (short, space)
  else .error "avro: invalid name"

/-- The member scan of hamba/avro `NewUnionSchema`: a union member may not be
a union, and member type names must be pairwise distinct (the Avro
specification forbids duplicate unnamed types in a union). -/
def unionCheck : List AvroSchema → List String → Option String
  | [], _ => none
  | s :: rest, seen =>
    match s with
    | .union _ => some "avro: union type cannot be a union"
    | _ =>
      if schemaTypeName s ∈ seen then some "avro: union type must be unique"
      else unionCheck rest (schemaTypeName s :: seen)

/-- Model of hamba/avro v1.8.0 `NewUnionSchema`: validates the members with
`unionCheck` and otherwise builds the union preserving member order. -/
def NewUnionSchema (types : List AvroSchema) : Except String AvroSchema :=
  match unionCheck types [] with
  | some e => .error e
  | none => .ok (.union types)

/-- Model of hamba/avro `NewField`: validates the field name and stores the
given schema and default (the `avro.NoDefault` sentinel kept as-is). -/
def NewField (name : String) (typ : AvroSchema) (dflt : GoValue) :
    Except String (String × AvroSchema × GoValue) :=
  if validateName name then .ok (name, typ, dflt)
  else .error "avro: invalid name"

/-- Model of hamba/avro `NewRecordSchema`: validates the record name against
the namespace and builds the record with the accumulated fields. -/
def NewRecordSchema (name : String) (ns : String)
    (fields : List (String × AvroSchema × GoValue)) : Except String AvroSchema :=
  match newName name ns with
  | .error e => .error e
  | .ok (short, space) => .ok (.record short space fields)

/-- `sqliteTypeToAvroSchema` from the source: maps the six storage classes to
null, long, double, string, bytes, boolean respectively; any other storage
class is an error carrying the offending value; a nullable type is wrapped as
`NewUnionSchema [null, primitive]`. -/
def sqliteTypeToAvroSchema (t : SqliteType) (nullable : Bool) :
    Except String AvroSchema :=
  let prim : Except String AvroSchema :=
    if t = SqliteNull then .ok .anull
    else if t = SqliteInteger then .ok .along
    else if t = SqliteReal then .ok .adouble
    else if t = SqliteText then .ok .astring
    else if t = SqliteBlob then .ok .abytes
    else if t = SqliteBoolean then .ok .aboolean
    else .error ("unknown sqlite type: " ++ t)
  match prim with
  | .error e => .error e
  | .ok p => if nullable then NewUnionSchema [.anull, p] else .ok p

/-- `SchemaField.AvroDefault` from the source: nullable fields resolve to the
no-default sentinel; otherwise each storage class type-asserts the stored
dynamic default against its host type (`int64`, `float64`, `string`,
`[]byte`, and Go `int` for boolean) and falls back to the fixed per-type
zero constant on mismatch; an unknown storage class falls through the switch
and returns the stored default unchanged. The function is total: it has no
error result. -/
def SchemaField.AvroDefault (s : SchemaField) : GoValue :=
  if s.Nullable then .noDefault
  else if s.Typ = SqliteNull then .vNil
  else if s.Typ = SqliteInteger then
    match s.Default with
    | .vInt64 _ => s.Default
    | _ => SqliteIntegerDefault
  else if s.Typ = SqliteReal then
    match s.Default with
    | .vFloat64 _ => s.Default
    | _ => SqliteRealDefault
  else if s.Typ = SqliteText then
    match s.Default with
    | .vString _ => s.Default
    | _ => SqliteTextDefault
  else if s.Typ = SqliteBlob then
    match s.Default with
    | .vBytes _ => s.Default
    | _ => SqliteBlobDefault
  else if s.Typ = SqliteBoolean then
    match s.Default with
    | .vInt n => .vBool (n != 0)
    | _ => .vBool false
  else s.Default

/-- The per-field part of `SqliteSchema.ToAvro`: map the storage class, then
build the Avro field with the resolved default, wrapping errors with the
source's message contexts. -/
def toAvroFields : List SchemaField →
    Except String (List (String × AvroSchema × GoValue))
  | [] => .ok []
  | f :: rest =>
    match sqliteTypeToAvroSchema f.Typ f.Nullable with
    | .error e =>
      .error ("failed to convert sqlite type to avro schema: [" ++ e ++ "]")
    | .ok s =>
      match NewField f.Name s f.AvroDefault with
      | .error e => .error ("failed to create avro field: [" ++ e ++ "]")
      | .ok af =>
        match toAvroFields rest with
        | .error e => .error e
        | .ok rest => .ok (af :: rest)

/-- `SqliteSchema.ToAvro` from the source: convert every field in order, then
build a record named after the table in the fixed namespace
`com.github.britt.avrosqlite`. -/
def SqliteSchema.ToAvro (s : SqliteSchema) : Except String AvroSchema :=
  match toAvroFields s.Fields with
  | .error e => .error e
  | .ok fs =>
    match NewRecordSchema s.Table "com.github.britt.avrosqlite" fs with
    | .error e => .error ("failed to create avro record schema: [" ++ e ++ "]")
    | .ok r => .ok r

/-- The digit-string value of a character list: `some` of the base-10 value
when the list is non-empty and all digits, `none` otherwise. -/
def digitsToNat (cs : List Char) : Option Nat :=
  match cs with
  | [] => none
  | _ =>
    cs.foldlM (fun acc c => if c.isDigit then some (acc * 10 + (c.toNat - 48)) else none) 0

/-- Model of Go `strconv.ParseInt(s, 10, bitSize)`. Result is the pair
(value, errored). Base-10 only: an optional sign followed by at least one
digit; on a syntax error the value is 0, on a range error the value is the
clamped bound (Go returns `ErrRange` with the saturated value). -/
def goParseInt (s : String) (bitSize : Nat) : Int × Bool :=
  let p : Bool × List Char :=
    match s.data with
    | '+' :: rest => (false, rest)
    | '-' :: rest => (true, rest)
    | cs => (false, cs)
  match digitsToNat p.2 with
  | none => (0, true)
  | some n =>
    let v : Int := if p.1 then -(n : Int) else (n : Int)
    let lo : Int := -(2 ^ (bitSize - 1))
    let hi : Int := 2 ^ (bitSize - 1) - 1
    if v < lo then (lo, true)
    else if hi < v then (hi, true)
    else (v, false)

/-- Model of Go `strconv.ParseFloat(s, 64)` over ordinary decimal notation
(optional sign, digits with an optional fraction part, optional exponent),
with float64 values modelled as rationals. Result is the pair
(value, errored); on a syntax error the value is 0. The special forms
(infinities, NaN, hex floats) and rounding/overflow are not modelled: no
property below exercises the real-typed default branch. -/
def goParseFloat (s : String) : Rat × Bool :=
  let p : Bool × List Char :=
    match s.data with
    | '+' :: rest => (true, rest)
    | '-' :: rest => (false, rest)
    | cs => (true, cs)
  let mant := p.2.takeWhile (fun c => !(c == 'e' || c == 'E'))
  let expPart := p.2.dropWhile (fun c => !(c == 'e' || c == 'E'))
  let intPart := mant.takeWhile (fun c => !(c == '.'))
  let dotPart := mant.dropWhile (fun c => !(c == '.'))
  let fracPart := dotPart.drop 1
  if !(intPart.all Char.isDigit) then (0, true)
  else if !(fracPart.all Char.isDigit) then (0, true)
  else if dotPart ≠ [] && dotPart.head? ≠ some '.' then (0, true)
  else if intPart = [] && fracPart = [] then (0, true)
  else
    let digits : Nat := (intPart ++ fracPart).foldl
      (fun acc c => acc * 10 + (c.toNat - 48)) 0
    let base : Rat := (digits : Rat) / ((10 : Rat) ^ fracPart.length)
    let signed : Rat := if p.1 then base else -base
    match expPart with
    | [] => (signed, false)
    | _ :: ecs =>
      let (e, bad) := goParseInt (String.mk ecs) 64
      if bad then (0, true)
      else (signed * (10 : Rat) ^ e, false)

/-- `toDefaultValueType` from the source: parse a raw catalog default string
into the host value matching the storage class. Returns the Go pair
(value, errored): integer and boolean go through `strconv.ParseInt` (64-bit
and 32-bit respectively, the boolean then tested nonzero, with `false`
returned alongside a parse error), real through `strconv.ParseFloat`, text is
the identity, blob the raw bytes, and an unknown class is `nil` plus an
error. -/
def toDefaultValueType (dataType : String) (s : String) : GoValue × Bool :=
  if dataType = SqliteNull then (.vNil, false)
  else if dataType = SqliteInteger then
    let r := goParseInt s 64
    (.vInt64 r.1, r.2)
  else if dataType = SqliteReal then
    let r := goParseFloat s
    (.vFloat64 r.1, r.2)
  else if dataType = SqliteText then (.vString s, false)
  else if dataType = SqliteBlob then (.vBytes s, false)
  else if dataType = SqliteBoolean then
    let r := goParseInt s 32
    if r.2 then (.vBool false, true) else (.vBool (r.1 != 0), false)
  else (.vNil, true)

/-- ASCII lower-casing of one character. -/
def charToLower (c : Char) : Char :=
  if 'A' ≤ c && c ≤ 'Z' then Char.ofNat (c.toNat + 32) else c

/-- Model of Go `strings.ToLower` over the ASCII strings the schema reader
feeds it (declared type names and the YES/NO nullability markers); defined by
structural recursion over the character list so that it evaluates under
definitional reduction. -/
def strToLower (s : String) : String :=
  String.mk (s.data.map charToLower)

/-- One row of the catalog query `pragma_table_info` as scanned by
`ReadSchema`: column name, declared type, the `IS_NULLABLE` string
(`YES`/`NO`), and the raw default text (`none` models a SQL NULL
`dflt_value`). The constant `TABLE_SCHEMA` output column is omitted: the
source scans and never uses it. -/
structure CatalogRow where
  columnName : String
  dataType : String
  isNullable : String
  defaultValue : Option String
deriving DecidableEq, Repr

/-- The per-row processing of the `ReadSchema` loop: lower-case the declared
type and nullability, take nullable to mean `IS_NULLABLE = yes`, and resolve
a present raw default through `toDefaultValueType`, DISCARDING its error
component (the source assigns `defaultSchemaValue, _ = ...` under a
`TODO: handle this error?` comment); an absent default becomes the
`avro.NoDefault` sentinel. -/
def readSchemaField (r : CatalogRow) : SchemaField :=
  let dataType := strToLower r.dataType
  let nullable := strToLower r.isNullable == "yes"
  let dflt : GoValue :=
    match r.defaultValue with
    | some s => (toDefaultValueType dataType s).1
    | none => .noDefault
  ⟨r.columnName, dataType, nullable, dflt⟩

/-- The pure content of `ReadSchema`: given the table name, the creation SQL
fetched from `sqlite_master`, and the catalog rows in declaration order,
build the `SqliteSchema`. Query and scan faults are external I/O; the row
processing itself has no error path. -/
def ReadSchema (tableName : String) (createSql : String)
    (rows : List CatalogRow) : SqliteSchema :=
  ⟨tableName, rows.map readSchemaField, createSql⟩

mutual

/-- The canonical (fingerprint) serialized form of an Avro schema, following
Avro Parsing Canonical Form: full names inlined, only the normative
attributes kept (defaults are stripped), minimal JSON. Two schemas have equal
fingerprints exactly when their canonical forms are equal strings. -/
def canonical : AvroSchema → String
  | .anull => "\"null\""
  | .along => "\"long\""
  | .adouble => "\"double\""
  | .astring => "\"string\""
  | .abytes => "\"bytes\""
  | .aboolean => "\"boolean\""
  | .union ts => "[" ++ canonicalList ts ++ "]"
  | .record n ns fs =>
    "\x7b\"name\":\"" ++ (if ns = "" then n else ns ++ "." ++ n) ++
      "\",\"type\":\"record\",\"fields\":[" ++ canonicalFields fs ++ "]\x7d"

/-- Canonical form of a union member list, comma separated. -/
def canonicalList : List AvroSchema → String
  | [] => ""
  | [s] => canonical s
  | s :: rest => canonical s ++ "," ++ canonicalList rest

/-- Canonical form of a record field list, comma separated. -/
def canonicalFields : List (String × AvroSchema × GoValue) → String
  | [] => ""
  | [(n, s, _)] => "\x7b\"name\":\"" ++ n ++ "\",\"type\":" ++ canonical s ++ "\x7d"
  | (n, s, _) :: rest =>
    "\x7b\"name\":\"" ++ n ++ "\",\"type\":" ++ canonical s ++ "\x7d," ++
      canonicalFields rest

end

/-- A decoded Avro record (`map[string]any`), modelled as an association list
from field name to dynamic value. -/
abbrev Row := List (String × GoValue)

/-- One `decoder.Decode` outcome in a byte stream's decode sequence, BY
VALUE: either the record that decode left in the target map or a non-EOF
decode fault (carrying its message). The end of the list models the decoder
reaching end-of-stream (`io.EOF`). This by-value view is used by the
`LoadAvro` loop, which copies `st[f]` into `args` and executes the insert
before the next decode overwrites the map, so only the per-iteration value
is observable there. -/
abbrev DecodeStream := List (Except String Row)

/-- One `decoder.Decode` outcome for the record-into-map decoder of
hamba/avro v1.8.0, as observed through the SHARED map variable `st` that
`ReadAvro` appends each iteration: a successful decode rewrites the shared
map to exactly the decoded record's fields (every iteration decodes the same
record schema, hence the same key set), while a fault carries the error and
the contents the shared map is left with — `none` when it was never
allocated, otherwise the previous record, possibly partially overwritten by
the failed decode. -/
inductive MapDecodeItem where
  | ok (r : Row) : MapDecodeItem
  | fault (e : String) (left : Option Row) : MapDecodeItem
deriving DecidableEq, Repr

/-- The observable value of `ReadAvro`'s output slice at loop exit: `n`
appended references to the one shared map, each dereferencing to its final
contents (`none` means the map was never allocated, in which case nothing
was appended and the slice is empty). -/
def aliasedOut (n : Nat) (st : Option Row) : List Row :=
  match st with
  | none => []
  | some r => List.replicate n r

/-- The decode loop of `ReadAvro` under the map-reuse semantics of the
hamba/avro v1.8.0 decoder: `Decode(&st)` allocates a map only when `st` is
nil and afterwards rewrites the SAME map in place, while the loop appends
the map reference `st` to `out` each iteration — so the loop state is the
number of appended references plus the shared map's contents, and the
observable output at exit is `aliasedOut` of them. The end of the item list
models `Decode` reporting `io.EOF` (clean stop, nil error); a fault stops
with its error and whatever the shared map was left holding. -/
def readAvroLoop : List MapDecodeItem → Nat → Option Row → List Row × Option String
  | [], n, st => (aliasedOut n st, none)
  | .ok r :: rest, n, _ => readAvroLoop rest (n + 1) (some r)
  | .fault e left :: _, n, _ => (aliasedOut n left, some e)

/-- `ReadAvro` from the source, over the decode sequence of the byte stream:
the decoder construction (`avro.NewDecoder` on the printed schema) succeeds
for every schema the package builds, so the function is the decode loop
started with zero appended references and the nil map. -/
def ReadAvro (stream : List MapDecodeItem) : List Row × Option String :=
  readAvroLoop stream 0 none

/-- `strings.Repeat` concatenation of `n` copies. -/
def natRepeatString : Nat → String → String
  | 0, _ => ""
  | n + 1, s => s ++ natRepeatString n s

/-- Model of Go `strings.Repeat(s, count)` with its `int` count: a negative
count panics (modelled as `none`). -/
def goStringsRepeat (s : String) (count : Int) : Option String :=
  if count < 0 then none
  else some (natRepeatString count.toNat s)

/-- The insert statement `LoadAvro` builds:
`INSERT INTO <table> (<names>) VALUES (<"?, " repeated len-1 times>?)`.
`none` models the `strings.Repeat` panic when the field list is empty
(`len(schema.Fields)-1 = -1`). -/
def buildInsertSql (table : String) (fieldNames : List String) : Option String :=
  match goStringsRepeat "?, " ((fieldNames.length : Int) - 1) with
  | none => none
  | some qs =>
    some ("INSERT INTO " ++ table ++ " (" ++ String.intercalate ", " fieldNames ++
      ") VALUES (" ++ qs ++ "?)")

/-- The decode/insert loop of `LoadAvro`. `insertResult r` is the outcome of
`stmt.Exec` for record `r` (`none` = success, `some e` = the execution
error). Returns (returned count, returned error, rows now in the table):
a decode fault returns `0` (not the running count) with the error and leaves
the already-inserted rows; an insert fault returns the running count with the
error; end of stream returns the count with no error. -/
def loadLoop (insertResult : Row → Option String) :
    DecodeStream → Int → List Row → Int × Option String × List Row
  | [], count, rows => (count, none, rows)
  | .error e :: _, _, rows => (0, some e, rows)
  | .ok r :: rest, count, rows =>
    match insertResult r with
    | some e => (count, some e, rows)
    | none => loadLoop insertResult rest (count + 1) (rows ++ [r])

/-- What a `LoadAvro` call returns together with the final state of the
destination table: the returned record count, the returned error (if any),
and the table contents (`none` = the table does not exist). -/
structure LoadReturn where
  count : Int
  err : Option String
  table : Option (List Row)
deriving DecidableEq, Repr

/-- `LoadAvro` from the source over the destination table state and the
stream's decode sequence. In order: translate the schema (a failure returns
it with the table untouched); build the decoder on the printed schema
(succeeds for every schema `ToAvro` produces); check existence — when absent
execute the creation SQL (modelled as creating the table empty), when present
`DELETE FROM` it (emptying it); build the insert statement, whose
`strings.Repeat` call panics on an empty field list (`none` result); then run
the decode/insert loop from the emptied table. A table row is the decoded
record it was inserted from (the source inserts `st[f]` for each field name
`f`). -/
def LoadAvro (schema : SqliteSchema) (table : Option (List Row))
    (stream : DecodeStream) (insertResult : Row → Option String) :
    Option LoadReturn :=
  match schema.ToAvro with
  | .error e => some ⟨0, some e, table⟩
  | .ok _ =>
    match buildInsertSql schema.Table (schema.Fields.map (·.Name)) with
    | none => none
    | some _ =>
      let out := loadLoop insertResult stream 0 []
      some ⟨out.1, out.2.1, some out.2.2⟩

/-- Running the decode loop over a run of successful decodes ending in
record `r` advances the reference count by the run's length and leaves the
shared map holding `r`. -/
theorem readAvroLoop_ok_run (r : Row) :
    ∀ (rows : List Row) (rest : List MapDecodeItem) (n : Nat) (st : Option Row),
      readAvroLoop ((rows ++ [r]).map .ok ++ rest) n st
        = readAvroLoop rest (n + rows.length + 1) (some r)
  | [], rest, n, st => by simp [readAvroLoop]
  | r0 :: rows, rest, n, st => by
    simp only [List.cons_append, List.map_cons, List.append_eq, readAvroLoop]
    rw [readAvroLoop_ok_run r rows rest (n + 1) (some r0)]
    congr 1
    simp only [List.length_cons]
    omega

/-- When every insert succeeds, the load loop consumes a prefix of successful
decodes by inserting each record and counting it. -/
theorem loadLoop_append_ok (ins : Row → Option String) (hins : ∀ r, ins r = none) :
    ∀ (pre : List Row) (rest : DecodeStream) (c : Int) (acc : List Row),
      loadLoop ins (pre.map .ok ++ rest) c acc
        = loadLoop ins rest (c + pre.length) (acc ++ pre)
  | [], rest, c, acc => by simp [loadLoop]
  | r :: pre, rest, c, acc => by
    simp only [List.map_cons, List.cons_append, List.append_eq, loadLoop, hins r]
    rw [loadLoop_append_ok ins hins pre rest (c + 1) (acc ++ [r])]
    congr 1
    · simp [List.length_cons]
      omega
    · simp

/-- C1 counterexample: the claim asserts that for every storage type with the
nullable flag set the mapper returns a two-way union; at the concrete input
`(SqliteNull, true)` it instead returns the union-uniqueness error (both
branches of the attempted union are `null`), and no union value. -/
theorem mapType_null_nullable_is_error :
    sqliteTypeToAvroSchema SqliteNull true
        = .error "avro: union type must be unique" ∧
      ∀ ts, sqliteTypeToAvroSchema SqliteNull true ≠ .ok (.union ts) := by
  refine ⟨rfl, fun ts h => ?_⟩
  rw [show sqliteTypeToAvroSchema SqliteNull true
      = .error "avro: union type must be unique" from rfl] at h
  exact Except.noConfusion h

/-- C1 amended: the type mapper realizes the fixed six-entry table for
`nullable = false`; for `nullable = true` it returns the null-first two-way
union for the five non-Null storage classes, while `(Null, true)` fails with
the union-uniqueness error; any storage class outside the six fails with an
error carrying the offending value. -/
theorem sqliteTypeToAvroSchema_characterization :
    (∀ t : SqliteType,
      t ∉ [SqliteNull, SqliteInteger, SqliteReal, SqliteText, SqliteBlob,
        SqliteBoolean] →
      ∀ b, sqliteTypeToAvroSchema t b = .error ("unknown sqlite type: " ++ t)) ∧
    (sqliteTypeToAvroSchema SqliteNull false = .ok .anull) ∧
    (sqliteTypeToAvroSchema SqliteInteger false = .ok .along) ∧
    (sqliteTypeToAvroSchema SqliteReal false = .ok .adouble) ∧
    (sqliteTypeToAvroSchema SqliteText false = .ok .astring) ∧
    (sqliteTypeToAvroSchema SqliteBlob false = .ok .abytes) ∧
    (sqliteTypeToAvroSchema SqliteBoolean false = .ok .aboolean) ∧
    (sqliteTypeToAvroSchema SqliteInteger true = .ok (.union [.anull, .along])) ∧
    (sqliteTypeToAvroSchema SqliteReal true = .ok (.union [.anull, .adouble])) ∧
    (sqliteTypeToAvroSchema SqliteText true = .ok (.union [.anull, .astring])) ∧
    (sqliteTypeToAvroSchema SqliteBlob true = .ok (.union [.anull, .abytes])) ∧
    (sqliteTypeToAvroSchema SqliteBoolean true
      = .ok (.union [.anull, .aboolean])) ∧
    (sqliteTypeToAvroSchema SqliteNull true
      = .error "avro: union type must be unique") := by
  refine ⟨?_, rfl, rfl, rfl, rfl, rfl, rfl, rfl, rfl, rfl, rfl, rfl, rfl⟩
  intro t ht b
  simp only [List.mem_cons, List.mem_singleton, not_or] at ht
  obtain ⟨h1, h2, h3, h4, h5, h6, -⟩ := ht
  unfold sqliteTypeToAvroSchema
  rw [if_neg h1, if_neg h2, if_neg h3, if_neg h4, if_neg h5, if_neg h6]

/-- C1 amended, witness at the unknown storage class `varchar`. -/
theorem sqliteTypeToAvroSchema_characterization_witness :
    sqliteTypeToAvroSchema "varchar" false
      = .error "unknown sqlite type: varchar" :=
  sqliteTypeToAvroSchema_characterization.1 "varchar" (by decide) false

/-- C2: schema translation is deterministic; two `SqliteSchema` values with
the same table name and field-wise identical field lists (the creation SQL
may differ: translation never reads it) translate to the same result, and in
particular to Avro record schemas with equal canonical (fingerprint)
serialized forms. -/
theorem toAvro_deterministic (s1 s2 : SqliteSchema)
    (ht : s1.Table = s2.Table) (hf : s1.Fields = s2.Fields) :
    s1.ToAvro = s2.ToAvro ∧
      ∀ a1 a2, s1.ToAvro = .ok a1 → s2.ToAvro = .ok a2 →
        canonical a1 = canonical a2 := by
  have h : s1.ToAvro = s2.ToAvro := by
    unfold SqliteSchema.ToAvro
    rw [ht, hf]
  refine ⟨h, fun a1 a2 h1 h2 => ?_⟩
  rw [h, h2] at h1
  injection h1 with h3
  rw [h3]

/-- C2 witness: the repo test's schema translated twice, under two different
creation SQL texts, gives the same result. -/
theorem toAvro_deterministic_witness :
    SqliteSchema.ToAvro
        ⟨"foo", [⟨"id", SqliteInteger, false, .vInt64 0⟩,
          ⟨"name", SqliteText, false, .vString "meatballs"⟩],
          "CREATE TABLE foo (id integer, name text)"⟩
      = SqliteSchema.ToAvro
        ⟨"foo", [⟨"id", SqliteInteger, false, .vInt64 0⟩,
          ⟨"name", SqliteText, false, .vString "meatballs"⟩], ""⟩ :=
  (toAvro_deterministic _ _ rfl rfl).1

/-- C3: a nullable field always resolves to the no-default sentinel,
whatever its storage class and stored default are. -/
theorem avroDefault_nullable_noDefault (s : SchemaField)
    (h : s.Nullable = true) : s.AvroDefault = .noDefault := by
  unfold SchemaField.AvroDefault
  rw [h]
  rfl

/-- C3 witness: a nullable integer field carrying an explicit default. -/
theorem avroDefault_nullable_noDefault_witness :
    SchemaField.AvroDefault ⟨"id", SqliteInteger, true, .vInt64 7⟩
      = .noDefault :=
  avroDefault_nullable_noDefault ⟨"id", SqliteInteger, true, .vInt64 7⟩ rfl

/-- C5: for a non-nullable field whose stored default has the wrong host
type for its storage class, `AvroDefault` returns the fixed per-type zero
value: Go `int` 0 for integer, 0.0 for real, the empty string for text and
the empty byte slice for blob. The function is total into `GoValue`: it has
no error result to return or propagate. -/
theorem avroDefault_type_mismatch_zero (s : SchemaField)
    (hn : s.Nullable = false) :
    (s.Typ = SqliteInteger → (∀ n, s.Default ≠ .vInt64 n) →
      s.AvroDefault = .vInt 0) ∧
    (s.Typ = SqliteReal → (∀ q, s.Default ≠ .vFloat64 q) →
      s.AvroDefault = .vFloat64 0) ∧
    (s.Typ = SqliteText → (∀ t, s.Default ≠ .vString t) →
      s.AvroDefault = .vString "") ∧
    (s.Typ = SqliteBlob → (∀ b, s.Default ≠ .vBytes b) →
      s.AvroDefault = .vBytes "") := by
  refine ⟨?_, ?_, ?_, ?_⟩ <;> intro ht hd <;>
    cases hD : s.Default <;>
      first
        | exact absurd hD (hd _)
        | (unfold SchemaField.AvroDefault; rw [hn, ht, hD]; rfl)

/-- C5 witness: a non-nullable integer field with a string default resolves
to the Go `int` 0 zero value. -/
theorem avroDefault_type_mismatch_zero_witness :
    SchemaField.AvroDefault ⟨"id", SqliteInteger, false, .vString "meatballs"⟩
      = .vInt 0 :=
  (avroDefault_type_mismatch_zero _ rfl).1 rfl
    (fun _ h => GoValue.noConfusion h)

/-- C10: for a non-nullable boolean field the nonzero test is applied only
when the stored default is a Go `int`: then the result is `default != 0`;
a default of any other dynamic type — `int64` included — yields `false`. -/
theorem avroDefault_boolean_int_assert (s : SchemaField)
    (hn : s.Nullable = false) (ht : s.Typ = SqliteBoolean) :
    (∀ n : Int, s.Default = .vInt n → s.AvroDefault = .vBool (n != 0)) ∧
    (∀ n : Int, s.Default = .vInt64 n → s.AvroDefault = .vBool false) ∧
    ((∀ n : Int, s.Default ≠ .vInt n) → s.AvroDefault = .vBool false) := by
  refine ⟨?_, ?_, ?_⟩
  · intro n hD
    unfold SchemaField.AvroDefault
    rw [hn, ht, hD]
    rfl
  · intro n hD
    unfold SchemaField.AvroDefault
    rw [hn, ht, hD]
    rfl
  · intro hd
    cases hD : s.Default <;>
      first
        | exact absurd hD (hd _)
        | (unfold SchemaField.AvroDefault; rw [hn, ht, hD]; rfl)

/-- C10 witness: default `int(4)` resolves to `true`, while `int64(4)` — the
host type integers take elsewhere in the pipeline — resolves to `false`. -/
theorem avroDefault_boolean_int_assert_witness :
    SchemaField.AvroDefault ⟨"id", SqliteBoolean, false, .vInt 4⟩
        = .vBool true ∧
      SchemaField.AvroDefault ⟨"id", SqliteBoolean, false, .vInt64 4⟩
        = .vBool false :=
  ⟨(avroDefault_boolean_int_assert _ rfl rfl).1 4 rfl,
    (avroDefault_boolean_int_assert _ rfl rfl).2.1 4 rfl⟩

/-- C4 counterexample: the claim asserts that a non-nullable integer column
with the unparsable raw default `abc` makes the schema read/translation fail
hard; on that concrete catalog row `ReadSchema` instead succeeds, silently
recording the parse zero value `int64(0)` as the field default (the source
discards the `toDefaultValueType` error), and translation of the resulting
schema succeeds as well. -/
theorem readSchema_unparsable_default_no_failure :
    ReadSchema "t" "CREATE TABLE t (c integer NOT NULL DEFAULT abc)"
        [⟨"c", "integer", "NO", some "abc"⟩]
      = ⟨"t", [⟨"c", "integer", false, .vInt64 0⟩],
          "CREATE TABLE t (c integer NOT NULL DEFAULT abc)"⟩ ∧
    ∃ a, SqliteSchema.ToAvro
        (ReadSchema "t" "CREATE TABLE t (c integer NOT NULL DEFAULT abc)"
          [⟨"c", "integer", "NO", some "abc"⟩]) = .ok a := by
  refine ⟨by decide, .record "t" "com.github.britt.avrosqlite"
    [("c", .along, .vInt64 0)], ?_⟩
  rfl

/-- C4 amended: reading an integer column whose catalog default text is
present never fails; the field's default becomes `int64` of the
`strconv.ParseInt` result with the parse error discarded, so the unparsable
text `abc` silently resolves to `int64(0)` (no hard `DefaultParseError`
exists in the code), while the text `4` resolves to the integer 4. -/
theorem readSchema_integer_default_resolution
    (tbl sql cname nstr s : String) :
    ReadSchema tbl sql [⟨cname, "integer", nstr, some s⟩]
      = ⟨tbl, [⟨cname, "integer", strToLower nstr == "yes",
          .vInt64 (goParseInt s 64).1⟩], sql⟩ ∧
    goParseInt "abc" 64 = (0, true) ∧
    goParseInt "4" 64 = (4, false) := by
  refine ⟨by rfl, by decide, by decide⟩

/-- C4 amended, witness at the claim's own inputs `abc` and `4`. -/
theorem readSchema_integer_default_resolution_witness :
    ReadSchema "t" "sql" [⟨"c", "integer", "NO", some "abc"⟩]
        = ⟨"t", [⟨"c", "integer", false, .vInt64 0⟩], "sql"⟩ ∧
      ReadSchema "t" "sql" [⟨"c", "integer", "NO", some "4"⟩]
        = ⟨"t", [⟨"c", "integer", false, .vInt64 4⟩], "sql"⟩ :=
  ⟨(readSchema_integer_default_resolution "t" "sql" "c" "NO" "abc").1,
    (readSchema_integer_default_resolution "t" "sql" "c" "NO" "4").1⟩

/-- C6: a successful `LoadAvro` against an existing destination table fully
replaces its contents: with three pre-existing rows and a stream decoding
exactly two records (all inserts succeeding), the call returns count 2 with
no error and the table holds exactly the two decoded rows. -/
theorem loadAvro_replaces_existing_rows (schema : SqliteSchema)
    (rows0 : List Row) (r1 r2 : Row) (ins : Row → Option String)
    (hok : ∃ a, schema.ToAvro = .ok a) (hf : schema.Fields ≠ [])
    (hins : ∀ r, ins r = none) (h3 : rows0.length = 3) :
    LoadAvro schema (some rows0) [.ok r1, .ok r2] ins
      = some ⟨2, none, some [r1, r2]⟩ := by
  obtain ⟨a, ha⟩ := hok
  have hne : 0 < schema.Fields.length :=
    Nat.pos_of_ne_zero (fun hz => hf (List.length_eq_zero.mp hz))
  have hb : ∃ q, buildInsertSql schema.Table (schema.Fields.map (·.Name))
      = some q := by
    unfold buildInsertSql goStringsRepeat
    have hcond : ¬ (((schema.Fields.map (·.Name)).length : Int) - 1 < 0) := by
      rw [List.length_map]
      omega
    rw [if_neg hcond]
    exact ⟨_, rfl⟩
  obtain ⟨q, hq⟩ := hb
  unfold LoadAvro
  rw [ha, hq]
  simp [loadLoop, hins]

/-- C6 witness: a one-column schema, a table of three rows, a stream of two
records. -/
theorem loadAvro_replaces_existing_rows_witness :
    LoadAvro
        ⟨"foo", [⟨"id", SqliteInteger, false, .vInt64 0⟩],
          "CREATE TABLE foo (id integer)"⟩
        (some [[("id", .vInt64 7)], [("id", .vInt64 8)], [("id", .vInt64 9)]])
        [.ok [("id", .vInt64 1)], .ok [("id", .vInt64 2)]] (fun _ => none)
      = some ⟨2, none, some [[("id", .vInt64 1)], [("id", .vInt64 2)]]⟩ :=
  loadAvro_replaces_existing_rows _ _ _ _ _ ⟨_, by rfl⟩ (by simp)
    (fun _ => rfl) rfl

/-- C7 counterexample: the claim asserts the decoded rows are returned; on a
stream of two distinct records the source instead returns two references to
the one reused decode map, both holding the SECOND record — not the decoded
sequence. -/
theorem readAvro_two_records_alias_last :
    ReadAvro [.ok [("a", .vInt64 1)], .ok [("a", .vInt64 2)]]
        = ([[("a", .vInt64 2)], [("a", .vInt64 2)]], none) ∧
      ReadAvro [.ok [("a", .vInt64 1)], .ok [("a", .vInt64 2)]]
        ≠ ([[("a", .vInt64 1)], [("a", .vInt64 2)]], none) :=
  ⟨by decide, by decide⟩

/-- C7 amended: `ReadAvro` stops cleanly at end-of-stream with a nil error —
the empty stream yields no rows and no error — and a decode fault stops with
the error rather than discarding the output built so far; but every entry of
the returned slice references the one map the decoder reuses, so after a run
of successful decodes the slice holds that many copies of the LAST decoded
record (not the decoded sequence), after a fault that many copies of
whatever the shared map was left holding alongside the error, and after a
fault before any successful decode the empty slice with the error. -/
theorem readAvro_shared_map_behavior :
    ReadAvro [] = ([], none) ∧
    (∀ (rows : List Row) (r : Row),
      ReadAvro ((rows ++ [r]).map .ok)
        = (List.replicate (rows.length + 1) r, none)) ∧
    (∀ (rows : List Row) (r : Row) (e : String) (left : Option Row)
        (rest : List MapDecodeItem),
      ReadAvro ((rows ++ [r]).map .ok ++ .fault e left :: rest)
        = (aliasedOut (rows.length + 1) left, some e)) ∧
    (∀ (e : String) (left : Option Row) (rest : List MapDecodeItem),
      ReadAvro (.fault e left :: rest) = ([], some e)) := by
  refine ⟨rfl, ?_, ?_, ?_⟩
  · intro rows r
    unfold ReadAvro
    rw [show (rows ++ [r]).map MapDecodeItem.ok
        = (rows ++ [r]).map MapDecodeItem.ok ++ ([] : List MapDecodeItem)
      by simp]
    rw [readAvroLoop_ok_run r rows [] 0 none]
    simp [readAvroLoop, aliasedOut]
  · intro rows r e left rest
    unfold ReadAvro
    rw [readAvroLoop_ok_run r rows (.fault e left :: rest) 0 none]
    simp [readAvroLoop]
  · intro e left rest
    cases left <;> rfl

/-- C7 amended, witness: one decoded record, then a fault that leaves the
shared map untouched: one reference to that map is returned alongside the
error. -/
theorem readAvro_shared_map_behavior_witness :
    ReadAvro [.ok [("a", .vInt64 1)],
        .fault "unexpected EOF" (some [("a", .vInt64 1)])]
      = ([[("a", .vInt64 1)]], some "unexpected EOF") := by
  have h := readAvro_shared_map_behavior.2.2.1 [] [("a", .vInt64 1)]
    "unexpected EOF" (some [("a", .vInt64 1)]) []
  simpa [aliasedOut] using h

/-- C8: when a decode fault occurs mid-stream after a non-empty prefix of
records was decoded and successfully inserted, `LoadAvro` returns count 0
together with the error — the running count is reported only for insert
failures — even though the inserted prefix remains in the destination
table. -/
theorem loadAvro_decode_fault_returns_zero (schema : SqliteSchema)
    (table : Option (List Row)) (pre : List Row) (e : String)
    (post : DecodeStream) (ins : Row → Option String)
    (hok : ∃ a, schema.ToAvro = .ok a) (hf : schema.Fields ≠ [])
    (hins : ∀ r, ins r = none) (hpre : pre ≠ []) :
    LoadAvro schema table (pre.map .ok ++ .error e :: post) ins
      = some ⟨0, some e, some pre⟩ := by
  obtain ⟨a, ha⟩ := hok
  have hne : 0 < schema.Fields.length :=
    Nat.pos_of_ne_zero (fun hz => hf (List.length_eq_zero.mp hz))
  have hb : ∃ q, buildInsertSql schema.Table (schema.Fields.map (·.Name))
      = some q := by
    unfold buildInsertSql goStringsRepeat
    have hcond : ¬ (((schema.Fields.map (·.Name)).length : Int) - 1 < 0) := by
      rw [List.length_map]
      omega
    rw [if_neg hcond]
    exact ⟨_, rfl⟩
  obtain ⟨q, hq⟩ := hb
  unfold LoadAvro
  rw [ha, hq]
  rw [loadLoop_append_ok ins hins pre (.error e :: post) 0 []]
  simp [loadLoop]

/-- C8 witness: one successfully inserted record, then a decode fault: the
call reports count 0 with the error while the record stays in the table. -/
theorem loadAvro_decode_fault_returns_zero_witness :
    LoadAvro
        ⟨"foo", [⟨"id", SqliteInteger, false, .vInt64 0⟩],
          "CREATE TABLE foo (id integer)"⟩
        (some []) [.ok [("id", .vInt64 1)], .error "bad byte"] (fun _ => none)
      = some ⟨0, some "bad byte", some [[("id", .vInt64 1)]]⟩ :=
  loadAvro_decode_fault_returns_zero _ _ [[("id", .vInt64 1)]] _ [] _
    ⟨_, by rfl⟩ (by simp) (fun _ => rfl) (by simp)

/-- C9: on a schema with an empty field list `LoadAvro` cannot complete:
whenever translation succeeds the insert-statement construction calls
`strings.Repeat` with count -1 and panics (modelled `none`); and
unconditionally the call either panics or returns count 0 with an error
(the translation-failure early return), never a normal completion. -/
theorem loadAvro_empty_fields_cannot_complete (schema : SqliteSchema)
    (table : Option (List Row)) (stream : DecodeStream)
    (ins : Row → Option String) (h : schema.Fields = []) :
    (∀ a, schema.ToAvro = .ok a →
      LoadAvro schema table stream ins = none) ∧
    (LoadAvro schema table stream ins = none ∨
      ∃ e, LoadAvro schema table stream ins = some ⟨0, some e, table⟩) := by
  have hbuild : buildInsertSql schema.Table (schema.Fields.map (·.Name))
      = none := by
    rw [h]; rfl
  constructor
  · intro a ha
    unfold LoadAvro
    rw [ha, hbuild]
  · cases hta : schema.ToAvro with
    | error e =>
      right
      exact ⟨e, by unfold LoadAvro; rw [hta]⟩
    | ok a =>
      left
      unfold LoadAvro
      rw [hta, hbuild]

/-- C9 witness: a zero-field schema with a valid table name panics in the
insert-statement construction. -/
theorem loadAvro_empty_fields_cannot_complete_witness :
    LoadAvro ⟨"foo", [], "CREATE TABLE foo (x integer)"⟩ none []
      (fun _ => none) = none :=
  (loadAvro_empty_fields_cannot_complete _ _ _ _ rfl).1 _ (by rfl)

end AvroSqlite
